import Mathlib

/-!
Verification of the To-Do List CLI (src/Day 1/index.js).

The program is a command-line task tracker persisting an ordered task
collection in `db.json` and an identifier counter in `counter.json`.
We give a shallow embedding of its operations:

* `Task`, `DB` — the data model (`{id, title, status}`, ordered list).
* `FileWrite` — one `fsPromises.writeFile` event, in program order.
* `addAction`, `editAction`, `deleteAction` — the bodies of the
  `add` / `edit` / `delete` command actions, operating on the loaded
  in-memory data and returning the outcome together with the list of
  file writes they issue.
* `listOutput`, `filterOutput` — the sequences of tasks the `list` and
  `filter` commands print.
* `JSONValue`, `taskToJSON`, `jsonToTask`, … — the persisted documents
  at the JSON-value level, abstracting `JSON.stringify` / `JSON.parse`
  (which are inverse on plain data) to an AST.
* `FileContent`, `readJSONFile` — the safe file reader of lines 18-30,
  distinguishing an absent file (ENOENT), an empty file, well-formed
  content and malformed content.
* `parseIntJS` — JavaScript `parseInt` on base-10 input, returning
  `none` for `NaN`.

Machine numbers (task ids, the counter) are JS numbers used only with
`++`/`--`; we model them as `Int`, matching exact integer arithmetic in
the ranges the program uses.
-/

namespace Todo

/-- A task record `{id, title, status}` as stored in `db.json`. -/
structure Task where
  id : Int
  title : String
  status : String
deriving Repr, DecidableEq

/-- The ordered task collection (the parsed content of `db.json`). -/
abbrev DB := List Task

/-- One `fsPromises.writeFile` call: either the counter document or the
task document, with the value written. -/
inductive FileWrite where
  | counterW (value : Int)
  | tasksW (db : DB)
deriving Repr, DecidableEq

/-- Holds (`true`) exactly on a write of the task document. -/
def FileWrite.isTasksWrite : FileWrite → Bool
  | .tasksW _ => true
  | .counterW _ => false

/-- Outcome of the `add` command action. -/
inductive AddResult where
  | created (t : Task)
  | alreadyExists
deriving Repr, DecidableEq

/-- The `add` command action (lines 48-90): on the loaded `db` and
counter value `ctr`, with the required `--title` option and the optional
`--status` option (`none` = flag absent).  Checks for a duplicate title
with `db.some`; on a duplicate it returns early with no writes.
Otherwise it increments the counter, defaults a falsy status
(`!options.status`, i.e. absent or the empty string) to `"todo"`,
pushes the new task, and writes `counter.json` then `db.json`. -/
def addAction (db : DB) (ctr : Int) (title : String) (status? : Option String) :
    AddResult × List FileWrite :=
  if db.any (fun t => t.title == title) then
    (.alreadyExists, [])
  else
    let ctr' := ctr + 1
    let status :=
      match status? with
      | none => "todo"
      | some s => if s = "" then "todo" else s
    let newTask : Task := ⟨ctr', title, status⟩
    (.created newTask, [.counterW ctr', .tasksW (db ++ [newTask])])

/-- The id comparison `task.id === parseInt(options.id)`: `parseInt`
yields `NaN` (modelled `none`) on unparsable input, and `NaN === x` is
false for every `x`. -/
def idMatches (idArg : Option Int) (t : Task) : Bool :=
  match idArg with
  | some n => n == t.id
  | none => false

/-- Mutation of the first task whose id matches, as done by the `edit`
action on `db[taskIndex]`: a falsy (`""`) title or an absent/falsy
status leaves the corresponding field unchanged.  Returns `none` when
`findIndex` yields `-1`. -/
def editList (idArg : Option Int) (title : String) (status? : Option String) :
    DB → Option DB
  | [] => none
  | t :: ts =>
    if idMatches idArg t then
      some ({ t with
              title := if title = "" then t.title else title,
              status :=
                match status? with
                | none => t.status
                | some s => if s = "" then t.status else s } :: ts)
    else
      (editList idArg title status? ts).map (t :: ·)

/-- Outcome of the `edit` command action. -/
inductive EditResult where
  | updated (db : DB)
  | notFound
deriving Repr, DecidableEq

/-- The `edit` command action (lines 102-130): finds the first task with
`task.id === parseInt(options.id)`; if none, reports not-found with no
writes; otherwise overwrites the provided fields and writes `db.json`.
The counter file is neither read nor written. -/
def editAction (db : DB) (idArg : Option Int) (title : String)
    (status? : Option String) : EditResult × List FileWrite :=
  match editList idArg title status? db with
  | none => (.notFound, [])
  | some db' => (.updated db', [.tasksW db'])

/-- Removal of the first task whose id matches
(`db.splice(taskIndex, 1)`); `none` when `findIndex` yields `-1`. -/
def deleteList (idArg : Option Int) : DB → Option DB
  | [] => none
  | t :: ts =>
    if idMatches idArg t then some ts
    else (deleteList idArg ts).map (t :: ·)

/-- Outcome of the `delete` command action. -/
inductive DeleteResult where
  | deleted (db : DB)
  | notFound
deriving Repr, DecidableEq

/-- The `delete` command action (lines 137-169): finds the first task
with matching id; if none, reports not-found with no writes; otherwise
splices it out, decrements the loaded counter, and writes `db.json`
then `counter.json`. -/
def deleteAction (db : DB) (ctr : Int) (idArg : Option Int) :
    DeleteResult × List FileWrite :=
  match deleteList idArg db with
  | none => (.notFound, [])
  | some db' => (.deleted db', [.tasksW db', .counterW (ctr - 1)])

/-- The `list` command (lines 175-180): `db.forEach(log)` prints every
task of the loaded collection in stored order. -/
def listOutput (db : DB) : List Task := db

/-- The `filter` command (lines 189-203): iterates the loaded collection
in order and prints exactly the elements whose `status` strictly equals
the `--status` option; the others produce no output. -/
def filterOutput (db : DB) (status : String) : List Task :=
  match db with
  | [] => []
  | t :: ts =>
    if t.status == status then t :: filterOutput ts status
    else filterOutput ts status

/-- A JSON value, the data exchanged with `JSON.stringify` /
`JSON.parse`.  Objects are ordered key-value lists (keys produced by the
program are distinct). -/
inductive JSONValue where
  | null
  | bool (b : Bool)
  | num (n : Int)
  | str (s : String)
  | arr (elems : List JSONValue)
  | obj (fields : List (String × JSONValue))

/-- Property access `o[k]` on a parsed JSON object: the value at the
first field named `k`, if any. -/
def getField (fields : List (String × JSONValue)) (k : String) :
    Option JSONValue :=
  (fields.find? (fun p => p.1 == k)).map (fun p => p.2)

/-- Serialization of one task, as `JSON.stringify` renders the object
pushed at lines 73-77: fields `id`, `title`, `status` in that order. -/
def taskToJSON (t : Task) : JSONValue :=
  .obj [("id", .num t.id), ("title", .str t.title), ("status", .str t.status)]

/-- Serialization of the whole collection: a JSON array of task
objects. -/
def tasksToJSON (db : DB) : JSONValue :=
  .arr (db.map taskToJSON)

/-- Reading one parsed array element back as a task, via the property
accesses the program performs (`element.id`, `element.title`,
`element.status`); `none` when the shape does not match. -/
def jsonToTask (j : JSONValue) : Option Task :=
  match j with
  | .obj fs =>
    match getField fs "id", getField fs "title", getField fs "status" with
    | some (.num i), some (.str ti), some (.str st) => some ⟨i, ti, st⟩
    | _, _, _ => none
  | _ => none

/-- Reading a list of parsed array elements back as tasks, in order. -/
def jsonToTaskList : List JSONValue → Option DB
  | [] => some []
  | j :: js =>
    match jsonToTask j, jsonToTaskList js with
    | some t, some ts => some (t :: ts)
    | _, _ => none

/-- Reading a parsed `db.json` document back as a task collection. -/
def jsonToTasks (j : JSONValue) : Option DB :=
  match j with
  | .arr js => jsonToTaskList js
  | _ => none

/-- The value of a parsed `counter.json` document (`ctr.counter`). -/
def jsonToCounter (j : JSONValue) : Option Int :=
  match j with
  | .obj fs =>
    match getField fs "counter" with
    | some (.num n) => some n
    | _ => none
  | _ => none

/-- The state of a persisted document on disk, as `readJSONFile`
distinguishes it: the file may be absent (`readFile` throws ENOENT),
present but empty (`!data`), present with well-formed JSON, or present
with malformed content (`JSON.parse` throws). -/
inductive FileContent where
  | absent
  | empty
  | wellFormed (j : JSONValue)
  | malformed

/-- The error outcomes `readJSONFile` rethrows; malformed content makes
`JSON.parse` throw a parse error. -/
inductive JsError where
  | parseError
deriving Repr, DecidableEq

/-- The reader `readJSONFile(filePath, defaultValue)` (lines 18-30): returns the
default when the file is absent (ENOENT caught) or empty (`!data`);
parses well-formed content; rethrows the `JSON.parse` error on
malformed content. -/
def readJSONFile (fc : FileContent) (defaultValue : JSONValue) :
    Except JsError JSONValue :=
  match fc with
  | .absent => .ok defaultValue
  | .empty => .ok defaultValue
  | .wellFormed j => .ok j
  | .malformed => .error .parseError

/-- The `db.json` load each command performs:
`readJSONFile("db.json", [])`. -/
def loadTasksJ (fc : FileContent) : Except JsError JSONValue :=
  readJSONFile fc (.arr [])

/-- The default counter document `{ counter: 0 }`. -/
def counterZeroJSON : JSONValue := .obj [("counter", .num 0)]

/-- The `counter.json` load `add` and `delete` perform:
`readJSONFile("counter.json", { counter: 0 })`. -/
def loadCounterJ (fc : FileContent) : Except JsError JSONValue :=
  readJSONFile fc counterZeroJSON

/-- The numeric value of a base-10 digit run. -/
def digitsToNat (ds : List Char) : Nat :=
  ds.foldl (fun a c => a * 10 + (c.toNat - 48)) 0

/-- JavaScript `parseInt(s)` on base-10 input: skips leading
whitespace, accepts one optional sign, then reads the longest digit
run; yields `NaN` (here `none`) when that run is empty. -/
def parseIntJS (s : String) : Option Int :=
  let cs := s.data.dropWhile (fun c => c == ' ' || c == '\t' || c == '\n' || c == '\r')
  let signed : List Char → Bool × List Char := fun l =>
    match l with
    | '-' :: rest => (true, rest)
    | '+' :: rest => (false, rest)
    | _ => (false, l)
  let (neg, body) := signed cs
  let ds := body.takeWhile (fun c => c.isDigit)
  if ds.isEmpty then none
  else if neg then some (-(digitsToNat ds : Int)) else some (digitsToNat ds)

/-! ### Helper lemmas -/

/-- When no stored title equals the given one, the duplicate check
`db.some(task => task.title === options.title)` is false. -/
theorem any_title_eq_false {db : DB} {title : String}
    (hfresh : ∀ t ∈ db, t.title ≠ title) :
    db.any (fun t => t.title == title) = false := by
  simp only [List.any_eq_false]
  intro t ht
  simpa using hfresh t ht

/-- When no task matches the id, `findIndex` yields `-1` in `edit`. -/
theorem editList_of_no_match (idArg : Option Int) (title : String)
    (status? : Option String) (db : DB)
    (h : ∀ t ∈ db, idMatches idArg t = false) :
    editList idArg title status? db = none := by
  induction db with
  | nil => rfl
  | cons t ts ih =>
    have h0 := h t (by simp)
    simp only [editList]
    rw [if_neg (by simp [h0]), ih (fun u hu => h u (by simp [hu]))]
    rfl

/-- When no task matches the id, `findIndex` yields `-1` in `delete`. -/
theorem deleteList_of_no_match (idArg : Option Int) (db : DB)
    (h : ∀ t ∈ db, idMatches idArg t = false) :
    deleteList idArg db = none := by
  induction db with
  | nil => rfl
  | cons t ts ih =>
    have h0 := h t (by simp)
    simp only [deleteList]
    rw [if_neg (by simp [h0]), ih (fun u hu => h u (by simp [hu]))]
    rfl

/-- Splicing out the first match: when every task of `pre` fails the id
test and `t` passes it, `delete` removes exactly `t`. -/
theorem deleteList_first_match (idArg : Option Int) (t : Task) (post : DB)
    (pre : DB) (hpre : ∀ u ∈ pre, idMatches idArg u = false)
    (ht : idMatches idArg t = true) :
    deleteList idArg (pre ++ t :: post) = some (pre ++ post) := by
  induction pre with
  | nil => simp [deleteList, ht]
  | cons u us ih =>
    have h0 := hpre u (by simp)
    simp only [List.cons_append, deleteList, List.append_eq]
    rw [if_neg (by simp [h0]), ih (fun v hv => hpre v (by simp [hv]))]
    rfl

/-- One parsed task object reads back as the task it came from. -/
theorem jsonToTask_taskToJSON (t : Task) :
    jsonToTask (taskToJSON t) = some t := rfl

/-! ### Claims -/

/-- C1: for every stored collection and counter, `add(title, status)`
with a title not equal to any existing task's title appends exactly one
new task at the end of the collection (size increases by 1), with id
equal to the previous counter value plus 1, the given title, and status
equal to the given status, or `"todo"` when no status is provided.  (The
status hypothesis excludes the empty string, which is not a status the
interface admits: the status domain is `todo`/`doing`/`done`.) -/
theorem add_fresh_appends (db : DB) (ctr : Int) (title : String)
    (status? : Option String)
    (hfresh : ∀ t ∈ db, t.title ≠ title) (hne : status? ≠ some "") :
    addAction db ctr title status? =
      (.created ⟨ctr + 1, title, status?.getD "todo"⟩,
        [.counterW (ctr + 1),
         .tasksW (db ++ [⟨ctr + 1, title, status?.getD "todo"⟩])]) ∧
    (db ++ [(⟨ctr + 1, title, status?.getD "todo"⟩ : Task)]).length
      = db.length + 1 := by
  refine ⟨?_, by simp⟩
  unfold addAction
  rw [any_title_eq_false hfresh]
  cases status? with
  | none => rfl
  | some s =>
    have hs : s ≠ "" := fun h => hne (by rw [h])
    simp [hs]

/-- Witness for C1: adding `"A"` with status `"doing"` to the empty
collection with counter 0 creates task `{id: 1, title: "A",
status: "doing"}` and writes the counter then the collection. -/
theorem add_fresh_appends_witness :
    addAction [] 0 "A" (some "doing") =
      (.created ⟨1, "A", "doing"⟩,
        [.counterW 1, .tasksW [⟨1, "A", "doing"⟩]]) := by
  have h := (add_fresh_appends [] 0 "A" (some "doing") (by simp) (by decide)).1
  simpa using h

/-- C2: for every stored collection and counter, `add(title, status)`
with a title equal to some existing task's title reports AlreadyExists
and performs no mutation: no file writes are issued, so the persisted
collection and counter are unchanged. -/
theorem add_duplicate_no_mutation (db : DB) (ctr : Int) (title : String)
    (status? : Option String) (hdup : ∃ t ∈ db, t.title = title) :
    addAction db ctr title status? = (.alreadyExists, []) := by
  have hany : db.any (fun t => t.title == title) = true := by
    simp only [List.any_eq_true]
    obtain ⟨t, ht, he⟩ := hdup
    exact ⟨t, ht, by simp [he]⟩
  simp [addAction, hany]

/-- Witness for C2: adding the already-present title `"A"` reports
AlreadyExists with no writes. -/
theorem add_duplicate_no_mutation_witness :
    addAction [⟨1, "A", "todo"⟩] 1 "A" none = (.alreadyExists, []) :=
  add_duplicate_no_mutation [⟨1, "A", "todo"⟩] 1 "A" none
    ⟨⟨1, "A", "todo"⟩, by simp, rfl⟩

/-- C3: for every stored collection, `edit(id, ...)` and `delete(id)`
with an id that matches no task report NotFound, perform no mutation,
and issue no file writes (so the collection and the counter documents
are untouched). -/
theorem edit_delete_notFound_no_mutation (db : DB) (ctr : Int)
    (idArg : Option Int) (title : String) (status? : Option String)
    (h : ∀ t ∈ db, idMatches idArg t = false) :
    editAction db idArg title status? = (.notFound, []) ∧
    deleteAction db ctr idArg = (.notFound, []) := by
  constructor
  · unfold editAction
    rw [editList_of_no_match idArg title status? db h]
  · unfold deleteAction
    rw [deleteList_of_no_match idArg db h]

/-- Witness for C3: editing or deleting id 5 in a collection holding
only id 1 reports NotFound with no writes. -/
theorem edit_delete_notFound_no_mutation_witness :
    editAction [⟨1, "A", "todo"⟩] (some 5) "B" none = (.notFound, []) ∧
    deleteAction [⟨1, "A", "todo"⟩] 1 (some 5) = (.notFound, []) :=
  edit_delete_notFound_no_mutation [⟨1, "A", "todo"⟩] 1 (some 5) "B" none
    (by decide)

/-- C4: for every stored collection and counter, `delete(id)` with an id
matching some task removes exactly one entry — the first task in stored
order whose id matches — leaves every other task unchanged in its
relative order, and decrements the counter by exactly 1.  The collection
is written as the surrounding tasks in their original order, and its
size shrinks by one. -/
theorem delete_removes_first_match (pre post : DB) (t : Task) (ctr : Int)
    (idArg : Option Int)
    (hpre : ∀ u ∈ pre, idMatches idArg u = false)
    (ht : idMatches idArg t = true) :
    deleteAction (pre ++ t :: post) ctr idArg =
      (.deleted (pre ++ post),
        [.tasksW (pre ++ post), .counterW (ctr - 1)]) ∧
    (pre ++ post).length + 1 = (pre ++ t :: post).length := by
  constructor
  · unfold deleteAction
    rw [deleteList_first_match idArg t post pre hpre ht]
  · simp only [List.length_append, List.length_cons]
    omega

/-- Witness for C4: deleting id 1 from `[{id:1}, {id:2}]` with counter 2
keeps exactly the id-2 task and writes counter 1. -/
theorem delete_removes_first_match_witness :
    deleteAction [⟨1, "A", "todo"⟩, ⟨2, "B", "done"⟩] 2 (some 1) =
      (.deleted [⟨2, "B", "done"⟩],
        [.tasksW [⟨2, "B", "done"⟩], .counterW 1]) := by
  have h := (delete_removes_first_match [] [⟨2, "B", "done"⟩]
    ⟨1, "A", "todo"⟩ 2 (some 1) (by simp) (by decide)).1
  simpa using h

/-- C5: for every stored collection and every status value `s`,
`filter(s)` prints exactly the subsequence of `list()` consisting of the
tasks whose status equals `s`, preserving their relative (stored)
order. -/
theorem filter_eq_list_filter (db : DB) (status : String) :
    filterOutput db status =
      (listOutput db).filter (fun t => t.status == status) := by
  induction db with
  | nil => rfl
  | cons t ts ih =>
    simp only [listOutput] at ih
    cases h : t.status == status <;>
      simp [filterOutput, listOutput, List.filter_cons, h, ih]

/-- C6: for every task collection, serializing it (the `saveTasks`
write, `JSON.stringify` of the array of task objects) and reading it
back (the `loadTasks` read, `JSON.parse` followed by the program's field
accesses) yields a collection equal by value to the one saved. -/
theorem save_load_roundtrip (db : DB) :
    jsonToTasks (tasksToJSON db) = some db := by
  induction db with
  | nil => rfl
  | cons t ts ih =>
    simp only [tasksToJSON, jsonToTasks, List.map] at *
    simp only [jsonToTaskList, jsonToTask_taskToJSON t, ih]

/-- C7 counterexample: the claim says a successful `add` writes the task
document first and the counter document second; on the concrete run
`add --title A` from the empty store, the write sequence is counter
first, task document second — mapped through `FileWrite.isTasksWrite`
the claimed order `[true, false]` is refuted and `[false, true]` is what
happens (lines 82-83 write `counter.json` before `db.json`). -/
theorem add_write_order_cex :
    ((addAction [] 0 "A" none).2.map FileWrite.isTasksWrite ≠
      [true, false]) ∧
    ((addAction [] 0 "A" none).2.map FileWrite.isTasksWrite =
      [false, true]) := by decide

/-- C7 amended: for every successful `add(title, status)` (title not
already present), the two file writes occur in the order: save the
counter document first (with the incremented value), then save the task
document. -/
theorem add_writes_counter_then_tasks (db : DB) (ctr : Int)
    (title : String) (status? : Option String)
    (hfresh : ∀ t ∈ db, t.title ≠ title) :
    ∃ db' : DB, (addAction db ctr title status?).2 =
      [.counterW (ctr + 1), .tasksW db'] := by
  unfold addAction
  rw [any_title_eq_false hfresh]
  exact ⟨_, rfl⟩

/-- Witness for the amended C7: the concrete run `add --title A` from
the empty store writes counter 1 first, then the task document. -/
theorem add_writes_counter_then_tasks_witness :
    ∃ db' : DB, (addAction [] 0 "A" none).2 =
      [.counterW 1, .tasksW db'] := by
  have h := add_writes_counter_then_tasks [] 0 "A" none (by simp)
  simpa using h

/-- C8: when the persisted counter document is absent or empty,
`loadCounter()` returns the counter record with value 0; when the
persisted task document is absent or empty, `loadTasks()` returns the
empty ordered sequence; in both cases the result is a success
(`Except.ok`), no error is raised. -/
theorem load_absent_empty_defaults :
    loadTasksJ .absent = .ok (.arr []) ∧
    loadTasksJ .empty = .ok (.arr []) ∧
    jsonToTasks (.arr []) = some [] ∧
    loadCounterJ .absent = .ok counterZeroJSON ∧
    loadCounterJ .empty = .ok counterZeroJSON ∧
    jsonToCounter counterZeroJSON = some 0 :=
  ⟨rfl, rfl, rfl, rfl, rfl, rfl⟩

/-- C9: when a persisted document is present but is not valid structured
data, the read fails with ParseError for every default value — no
recovery, no substitution of a default — and the error propagates as
the fatal outcome of the load for that invocation (both for the task
document and for the counter document). -/
theorem malformed_parse_error_propagates (d : JSONValue) :
    readJSONFile .malformed d = .error .parseError ∧
    loadTasksJ .malformed = .error .parseError ∧
    loadCounterJ .malformed = .error .parseError :=
  ⟨rfl, rfl, rfl⟩

/-- C10: invoking `edit` or `delete` with an id argument that does not
parse as an integer (`parseInt` yields NaN, modelled `none`) matches no
task — `NaN === x` is false for every `x` — so the operation reports
NotFound and issues no writes, leaving the collection and counter
unchanged. -/
theorem unparsable_id_notFound (db : DB) (ctr : Int) (s : String)
    (title : String) (status? : Option String)
    (h : parseIntJS s = none) :
    editAction db (parseIntJS s) title status? = (.notFound, []) ∧
    deleteAction db ctr (parseIntJS s) = (.notFound, []) := by
  rw [h]
  have hm : ∀ t ∈ db, idMatches none t = false := fun t _ => rfl
  constructor
  · unfold editAction
    rw [editList_of_no_match none title status? db hm]
  · unfold deleteAction
    rw [deleteList_of_no_match none db hm]

/-- Witness for C10: the id argument `"abc"` parses to NaN, and both
`edit` and `delete` on a one-task collection report NotFound with no
writes. -/
theorem unparsable_id_notFound_witness :
    parseIntJS "abc" = none ∧
    editAction [⟨1, "A", "todo"⟩] (parseIntJS "abc") "B" none =
      (.notFound, []) ∧
    deleteAction [⟨1, "A", "todo"⟩] 1 (parseIntJS "abc") =
      (.notFound, []) := by
  have h : parseIntJS "abc" = none := by decide
  exact ⟨h,
    (unparsable_id_notFound [⟨1, "A", "todo"⟩] 1 "abc" "B" none h).1,
    (unparsable_id_notFound [⟨1, "A", "todo"⟩] 1 "abc" "B" none h).2⟩

end Todo
